import Mathlib

/-!
Verification development for the binance-mcp-server repository.

The definitions below are shallow embeddings of the Python source:
pure functions become Lean functions over exact rational arithmetic
(Python Decimal values are rationals of the form m / 10^e), stateful
workers become explicit state passing with fuel-indexed loops, and
network calls become oracle functions passed as arguments.
-/

namespace BinanceMCP

/-! ### Decimal arithmetic helpers

Python Decimal floor division (the // operator) truncates toward zero,
and Decimal.quantize uses ROUND_HALF_EVEN by default.  Both are modelled
exactly over the rationals.
-/

/-- Truncation toward zero, the semantics of Decimal floor division. -/
def ratTrunc (q : ℚ) : ℤ :=
  if 0 ≤ q then ⌊q⌋ else ⌈q⌉

/-- Round to the nearest integer, ties to even (ROUND_HALF_EVEN). -/
def roundHalfEven (q : ℚ) : ℤ :=
  let n := ⌊q⌋
  let f := q - n
  if f < 1/2 then n
  else if 1/2 < f then n + 1
  else if 2 ∣ n then n else n + 1

/-- Decimal.quantize to prec fractional digits under ROUND_HALF_EVEN. -/
def quantizeDec (x : ℚ) (prec : ℕ) : ℚ :=
  (roundHalfEven (x * 10 ^ prec) : ℚ) / 10 ^ prec

/-- The rational value of a decimal tick/step string with mantissa m and
exponent -e, e.g. tickOf 10 2 is the value of the string "0.10". -/
def tickOf (m : ℕ) (e : ℕ) : ℚ :=
  (m : ℚ) / 10 ^ e

/-! ### futures_utils.round_to_tick_size / round_to_step_size

Source: src/binance_mcp_server/futures_utils.py lines 180-223.  The
tick/step string is given as mantissa m and precision e (the number of
fractional digits, i.e. abs(tick.as_tuple().exponent)).
-/

/-- Embedding of round_to_tick_size: floor-divide by the tick, multiply
back, then quantize to the tick precision. -/
def round_to_tick_size (value : ℚ) (m e : ℕ) : ℚ :=
  let tick := tickOf m e
  let rounded := (ratTrunc (value / tick) : ℚ) * tick
  quantizeDec rounded e

/-- Embedding of round_to_step_size, identical computation with the step
size in place of the tick size. -/
def round_to_step_size (value : ℚ) (m e : ℕ) : ℚ :=
  let step := tickOf m e
  let rounded := (ratTrunc (value / step) : ℚ) * step
  quantizeDec rounded e

/-! ### get_order_status_futures fill percentage

Source: src/binance_mcp_server/tools/futures/get_order_status.py lines
112-115 and 154.  origQty and executedQty are read from the exchange
response with default 0 when absent; values that fail float parsing
raise and never reach this computation, so the fields are modelled as
already-parsed optional rationals.
-/

structure OrderQtyFields where
  origQty : Option ℚ
  executedQty : Option ℚ
deriving DecidableEq, Repr

/-- Embedding of the fillPercentage computation: guard orig_qty > 0,
else 0; the reported value is rounded to 2 decimal places. -/
def fillPercentage (d : OrderQtyFields) : ℚ :=
  let orig_qty := d.origQty.getD 0
  let executed_qty := d.executedQty.getD 0
  if 0 < orig_qty then quantizeDec (executed_qty / orig_qty * 100) 2 else 0

/-! ### queue_fill_estimator kernels

Source: src/binance_mcp_server/tools/futures/queue_fill_estimator.py.
math.exp is an external library function, modelled as an arbitrary
function argument expQ; the claims only need that exp of a nonpositive
argument lies in (0, 1], which the theorems take as hypotheses at the
point of use.
-/

structure OrderBookSnap where
  bids : List (ℚ × ℚ)
  asks : List (ℚ × ℚ)
deriving DecidableEq, Repr

/-- Embedding of estimate_queue_position (lines 133-142): for BUY sums
bid quantity at prices at or above the level, for SELL sums ask quantity
at prices at or below; also returns the quantity near the exact level. -/
def estimate_queue_position (ob : OrderBookSnap) (side : String) (price : ℚ) :
    ℚ × ℚ :=
  if side.toUpper = "BUY" then
    (((ob.bids.filter (fun pq => price ≤ pq.1)).map Prod.snd).sum,
     ((ob.bids.filter (fun pq => |pq.1 - price| < 1/100)).map Prod.snd).sum)
  else
    (((ob.asks.filter (fun pq => pq.1 ≤ price)).map Prod.snd).sum,
     ((ob.asks.filter (fun pq => |pq.1 - price| < 1/100)).map Prod.snd).sum)

/-- Embedding of calculate_fill_probability (lines 145-178): 1.0 when the
queue ahead is nonpositive, 0.0 when the consumption rate is nonpositive,
otherwise the exponential CDF clamped to the unit interval. -/
def calculate_fill_probability (expQ : ℚ → ℚ)
    (queue_ahead consumption_rate time_window_seconds : ℚ) : ℚ :=
  if queue_ahead ≤ 0 then 1
  else if consumption_rate ≤ 0 then 0
  else
    let lambda_rate := consumption_rate / queue_ahead
    min (max (1 - expQ (-(lambda_rate * time_window_seconds))) 0) 1

structure LevelEstimate where
  price : ℚ
  queue_qty_est : ℚ
  fill_prob_30s : ℚ
  fill_prob_60s : ℚ
deriving DecidableEq, Repr

/-- Embedding of the per-level loop of estimate_queue_fill (lines
513-550): each requested price level gets the fill probability evaluated
at 30 and at 60 seconds, rounded to 3 decimal places. -/
def queue_fill_per_level (expQ : ℚ → ℚ) (ob : OrderBookSnap) (side : String)
    (qty consumption_rate : ℚ) (price_levels : List ℚ) : List LevelEstimate :=
  price_levels.map fun price =>
    let queue_ahead := (estimate_queue_position ob side price).1
    let total_queue := queue_ahead + qty
    { price := price
      queue_qty_est := quantizeDec total_queue 4
      fill_prob_30s :=
        quantizeDec (calculate_fill_probability expQ total_queue consumption_rate 30) 3
      fill_prob_60s :=
        quantizeDec (calculate_fill_probability expQ total_queue consumption_rate 60) 3 }

/-- Concrete stand-in for math.exp used by witnesses: on nonpositive
inputs it lies in (0, 1] as the real exponential does. -/
def expModel (x : ℚ) : ℚ := 1 / (1 - x)

/-! ### FuturesClient request signing

Source: src/binance_mcp_server/futures_config.py lines 133-181.  A
Python dict with string keys is modelled as an association list that
preserves insertion order; assignment replaces an existing key in place
or appends a fresh key at the end, exactly as CPython dicts do.
urlencode with its default quote_via=quote_plus and safe set empty is
modelled character by character.  hmac.new(...).hexdigest() is an
external library call, modelled as a function argument.
-/

def keys {α : Type} (ps : List (String × α)) : List String := ps.map Prod.fst

/-- Dict assignment: replace the value in place when the key exists,
append at the end otherwise. -/
def setKey {α : Type} (ps : List (String × α)) (k : String) (v : α) :
    List (String × α) :=
  match ps with
  | [] => [(k, v)]
  | (k₀, v₀) :: rest =>
      if k₀ = k then (k, v) :: rest else (k₀, v₀) :: setKey rest k v

/-- Dict deletion (del d[k]). -/
def delKey {α : Type} (ps : List (String × α)) (k : String) :
    List (String × α) :=
  ps.filter (fun kv => kv.1 != k)

/-- Characters urllib never quotes: ASCII alphanumerics and _.-~ . -/
def safeChar (c : Char) : Bool :=
  c.isAlphanum || c = '_' || c = '.' || c = '-' || c = '~'

def hexDigit (n : ℕ) : Char :=
  if n < 10 then Char.ofNat (48 + n) else Char.ofNat (55 + n)

def percentEncodeByte (b : ℕ) : List Char :=
  ['%', hexDigit (b / 16), hexDigit (b % 16)]

/-- quote_plus on one character: safe characters pass through, space
becomes +, everything else is percent-encoded per UTF-8 byte. -/
def quoteChar (c : Char) : List Char :=
  if safeChar c then [c]
  else if c = ' ' then ['+']
  else ((String.utf8EncodeChar c).map (fun b => percentEncodeByte b.toNat)).flatten

def quotePlus (s : String) : String := ⟨(s.data.map quoteChar).flatten⟩

def urlencodePair (kv : String × String) : String :=
  quotePlus kv.1 ++ "=" ++ quotePlus kv.2

/-- The join with ampersands performed by urllib.parse.urlencode. -/
def joinAmp : List String → String
  | [] => ""
  | [x] => x
  | x :: y :: rest => x ++ "&" ++ joinAmp (y :: rest)

def urlencode (ps : List (String × String)) : String :=
  joinAmp (ps.map urlencodePair)

/-- Embedding of FuturesClient._sign_request: copy the parameters, set
timestamp to local time plus the clock offset, set recvWindow, sign the
url-encoded query string, and store the signature. -/
def sign_request (hmacSha256Hex : String → String → String) (secret : String)
    (localMs offset recvWindow : ℤ) (params : List (String × String)) :
    List (String × String) :=
  let p1 := setKey params "timestamp" (toString (localMs + offset))
  let p2 := setKey p1 "recvWindow" (toString recvWindow)
  let query_string := urlencode p2
  setKey p2 "signature" (hmacSha256Hex secret query_string)

/-- The parameter map right before the signature is attached. -/
def signedBase (localMs offset recvWindow : ℤ)
    (params : List (String × String)) : List (String × String) :=
  setKey (setKey params "timestamp" (toString (localMs + offset)))
    "recvWindow" (toString recvWindow)

/-- Concrete stand-in for hmac hexdigest used by witnesses. -/
def hmacModel (_secret _msg : String) : String := "abc123"

/-! ### Parameter cache and retry wrapper

Source: src/binance_mcp_server/tools/futures/rate_limit_utils.py.
Result payloads are JSON-like Python dicts, modelled by the PyVal type;
the wrapped tool function is an oracle indexed by attempt number, total
(the exception path is not exercised by the cache claims).  time.time()
is passed in as the explicit now argument.
-/

inductive PyVal : Type where
  | bool (b : Bool)
  | str (s : String)
  | num (q : ℚ)
  | dict (fields : List (String × PyVal))

/-- Python truthiness for the values appearing in result payloads. -/
def truthy : PyVal → Bool
  | .bool b => b
  | .str s => !(s == "")
  | .num q => decide (q ≠ 0)
  | .dict l => !l.isEmpty

/-- Embedding of result.get with default False followed by a truthiness
test, as in the wrapper's success check. -/
def getSuccess (r : List (String × PyVal)) : Bool :=
  match List.lookup "success" r with
  | some v => truthy v
  | none => false

/-- Embedding of the wrapper's error-code extraction: result.get with
dict check, then error.get of the code. -/
def errorCode (r : List (String × PyVal)) : Option ℚ :=
  match List.lookup "error" r with
  | some (.dict e) =>
      match List.lookup "code" e with
      | some (.num q) => some q
      | _ => none
  | _ => none

/-- RetryConfig.retry_codes default (-1003, -1015, 429). -/
def retryCodes : List ℚ := [-1003, -1015, 429]

structure CacheEntry : Type where
  value : List (String × PyVal)
  ts : ℚ
  ttl : ℚ

/-- Embedding of ParameterCache.get: miss when absent; expired entries
(age strictly greater than ttl) are deleted and miss; otherwise hit. -/
def cache_get (c : List (String × CacheEntry)) (now : ℚ) (k : String) :
    Option (List (String × PyVal)) × List (String × CacheEntry) :=
  match List.lookup k c with
  | none => (none, c)
  | some e => if e.ttl < now - e.ts then (none, delKey c k) else (some e.value, c)

/-- Embedding of ParameterCache.set with an explicit ttl. -/
def cache_set (c : List (String × CacheEntry)) (k : String)
    (value : List (String × PyVal)) (now ttl : ℚ) :
    List (String × CacheEntry) :=
  setKey c k ⟨value, now, ttl⟩

/-- Embedding of the retry loop: at every attempt the wrapped function
runs; a non-success result whose code is retryable is retried while
attempts remain, any other result is returned as is.  The first argument
of the recursion is the current attempt index, the last the number of
attempts still allowed after this one. -/
def runAttempts (func : ℕ → List (String × PyVal)) (attempt : ℕ) :
    ℕ → List (String × PyVal)
  | 0 => func attempt
  | n + 1 =>
      let r := func attempt
      if getSuccess r then r
      else if (errorCode r).any (fun c => c ∈ retryCodes) then
        runAttempts func (attempt + 1) n
      else r

/-- Embedding of one call through the with_retry_and_cache wrapper: on a
cache hit the cached payload is copied and stamped _cache_hit true; on a
miss the function runs under retry, and a successful result is stamped
_cache_hit false and stored in the cache. -/
def with_retry_and_cache_call (func : ℕ → List (String × PyVal))
    (maxRetries : ℕ) (cache : List (String × CacheEntry)) (now : ℚ)
    (cache_key : String) (ttl : ℚ) :
    List (String × PyVal) × List (String × CacheEntry) :=
  match cache_get cache now cache_key with
  | (some cached, c₁) => (setKey cached "_cache_hit" (PyVal.bool true), c₁)
  | (none, c₁) =>
      let r := runAttempts func 0 maxRetries
      if getSuccess r then
        let r₁ := setKey r "_cache_hit" (PyVal.bool false)
        (r₁, cache_set c₁ cache_key r₁ now ttl)
      else (r, c₁)

/-- Concrete successful analytic payload used by the cache witnesses. -/
def funcModel : ℕ → List (String × PyVal) :=
  fun _ => [("success", PyVal.bool true), ("x", PyVal.num 1)]

/-! ### set_leverage

Source: src/binance_mcp_server/tools/futures/set_leverage.py lines
58-142.  The positionRisk read and the POST are exchange calls, passed
in as their observed results; the second component of the return value
records whether the POST to /fapi/v1/leverage was submitted.
-/

structure PositionRiskEntry where
  symbol : String
  leverage : ℤ
deriving DecidableEq, Repr

structure LeverageResp where
  code : Option ℤ
  message : Option String
  symbol : Option String
  leverage : Option ℤ
  maxNotionalValue : Option String
deriving DecidableEq, Repr

inductive SetLeverageResult : Type where
  | validation_error (msg : String)
  | api_error (code : Option ℤ) (msg : String)
  | ok (already_set : Bool) (data_leverage : ℤ) (previous_leverage : Option ℤ)
deriving DecidableEq, Repr

/-- Python substring membership test (pat in s). -/
def containsStr (s pat : String) : Bool := (s.splitOn pat).length != 1

/-- The current-leverage scan over the positionRisk response: requires a
successful, non-empty list response and takes the first entry matching
the symbol. -/
def currentLeverage (symbol : String)
    (checkResult : Option (List PositionRiskEntry)) : Option ℤ :=
  match checkResult with
  | some entries =>
      if entries.isEmpty then none
      else (entries.find? (fun p => p.symbol == symbol)).map (fun p => p.leverage)
  | none => none

/-- Embedding of set_leverage after symbol validation: validate the
leverage bounds, read current leverage, then ALWAYS submit the POST;
code -4046 or a no-need-to-change message is coerced to success with
already_set true. -/
def set_leverage (symbol : String) (leverage : ℤ)
    (checkResult : Option (List PositionRiskEntry))
    (postResult : Bool × LeverageResp) : SetLeverageResult × Bool :=
  if leverage < 1 then
    (.validation_error "Leverage must be a positive integer", false)
  else if 125 < leverage then
    (.validation_error "Leverage exceeds maximum allowed (125)", false)
  else
    let current := currentLeverage symbol checkResult
    let already_set := current == some leverage
    match postResult with
    | (true, resp) => (.ok already_set (resp.leverage.getD leverage) current, true)
    | (false, resp) =>
        let error_msg := resp.message.getD "Failed to set leverage"
        if resp.code == some (-4046) || containsStr error_msg "No need to change" then
          (.ok true leverage none, true)
        else
          (.api_error resp.code error_msg, true)

/-! ### cancel_on_ttl execution

Source: src/binance_mcp_server/tools/futures/cancel_on_ttl.py lines
52-118 (_ttl_worker) and 253-303 (blocking mode).  The status fetch and
the cancel request performed at execution time are passed in as their
observed results: a success flag plus the response fields the code
reads.
-/

structure OrderStatusData where
  status : Option String
  executedQty : Option String
  avgPrice : Option String
  message : Option String
deriving DecidableEq, Repr

inductive TtlAction : Type where
  | cancelled (order_id : ℕ) (final_status : Option String)
      (executed_qty : Option String)
  | no_action (order_id : ℕ) (final_status : Option String)
      (executed_qty : Option String)
deriving DecidableEq, Repr

structure TtlOutcome where
  status : String
  result : Option TtlAction
  errorMsg : Option String
deriving DecidableEq, Repr

/-- Is the fetched order status one of the live states. -/
def isActiveStatus (st : Option String) : Prop :=
  st = some "NEW" ∨ st = some "PARTIALLY_FILLED"

instance (st : Option String) : Decidable (isActiveStatus st) := by
  unfold isActiveStatus
  infer_instance

/-- Embedding of the tail of _ttl_worker, from the post-sleep cancelled
check onward: fetch the status; on a live status attempt the cancel and
record action cancelled on success (error on failure); on any other
status record action no_action with the observed status and quantity. -/
def ttl_worker_execute (order_id : ℕ) (jobCancelled : Bool)
    (statusResult : Bool × OrderStatusData)
    (cancelResult : Bool × OrderStatusData) : TtlOutcome :=
  if jobCancelled then ⟨"cancelled", none, none⟩
  else if !statusResult.1 then ⟨"error", none, statusResult.2.message⟩
  else if isActiveStatus statusResult.2.status then
    if cancelResult.1 then
      ⟨"completed",
       some (.cancelled order_id cancelResult.2.status cancelResult.2.executedQty),
       none⟩
    else ⟨"error", none, cancelResult.2.message⟩
  else
    ⟨"completed",
     some (.no_action order_id statusResult.2.status statusResult.2.executedQty),
     none⟩

inductive TtlBlockingResult : Type where
  | cancelled_resp (order_id : ℕ) (final_status : Option String)
      (executed_qty : Option String) (avg_price : Option String)
  | no_action_resp (order_id : ℕ) (final_status : Option String)
      (executed_qty : Option String)
  | api_error (msg : Option String)
  | cancel_failed (msg : Option String)
deriving DecidableEq, Repr

/-- Embedding of the blocking branch of cancel_on_ttl after the sleep:
refetch status, cancel only when still live, otherwise report
no_action with the new status. -/
def cancel_on_ttl_blocking (order_id : ℕ)
    (statusResult : Bool × OrderStatusData)
    (cancelResult : Bool × OrderStatusData) : TtlBlockingResult :=
  if !statusResult.1 then .api_error statusResult.2.message
  else if isActiveStatus statusResult.2.status then
    if cancelResult.1 then
      .cancelled_resp order_id cancelResult.2.status cancelResult.2.executedQty
        cancelResult.2.avgPrice
    else .cancel_failed cancelResult.2.message
  else
    .no_action_resp order_id statusResult.2.status statusResult.2.executedQty

/-! ### Bracket orchestrator

Source: src/binance_mcp_server/tools/futures/bracket_orders.py.  The
exchange is modelled by oracles: place returns the orderId of a
successfully placed exit order or none on failure, fetchEntry and
fetchExit return the order data observed at a given poll tick, cancelOk
reports whether a silent cancel succeeded, and cancelSignal is the
job-registry cancelled flag as observed at a given tick.  The poll loops
are fuel-indexed; running out of fuel is the 1-hour wall-clock cap.
-/

structure TPSpec where
  price : Option ℚ
  quantity : Option ℚ
deriving DecidableEq, Repr

structure ExitOrderParams where
  symbol : String
  side : String
  orderType : String
  quantity : ℚ
  stopPrice : ℚ
  workingType : String
  reduceOnly : Bool
deriving DecidableEq, Repr

structure ExitsResult where
  sl_order_id : Option ℕ
  tp_order_ids : List ℕ
  sl_error : Bool
  tp_error_indices : List ℕ
deriving DecidableEq, Repr

/-- The take-profit loop of _place_exit_orders (lines 242-280): clamp
each spec quantity to the remaining amount, skip nonpositive quantities
and absent or zero prices, decrement remaining only on success, record
failed indices.  Returns placed ids, failed indices, and the submitted
requests in order. -/
def tp_exit_loop (place : ExitOrderParams → Option ℕ)
    (symbol exit_side working_type : String) :
    List TPSpec → ℕ → ℚ → List ℕ × List ℕ × List ExitOrderParams
  | [], _, _ => ([], [], [])
  | tp :: rest, i, remaining =>
      let tp_qty₀ := tp.quantity.getD remaining
      let tp_qty := if remaining < tp_qty₀ then remaining else tp_qty₀
      if tp_qty ≤ 0 then
        tp_exit_loop place symbol exit_side working_type rest (i + 1) remaining
      else if tp.price.getD 0 = 0 then
        tp_exit_loop place symbol exit_side working_type rest (i + 1) remaining
      else
        let p : ExitOrderParams :=
          { symbol := symbol, side := exit_side,
            orderType := "TAKE_PROFIT_MARKET", quantity := tp_qty,
            stopPrice := tp.price.getD 0, workingType := working_type,
            reduceOnly := true }
        match place p with
        | some oid =>
            let r := tp_exit_loop place symbol exit_side working_type rest
              (i + 1) (remaining - tp_qty)
            (oid :: r.1, r.2.1, p :: r.2.2)
        | none =>
            let r := tp_exit_loop place symbol exit_side working_type rest
              (i + 1) remaining
            (r.1, i :: r.2.1, p :: r.2.2)

/-- The reduce-only STOP_MARKET stop-loss request of _place_exit_orders
(lines 223-231). -/
def sl_exit_request (symbol exit_side working_type : String)
    (filled_qty slp : ℚ) : ExitOrderParams :=
  { symbol := symbol, side := exit_side, orderType := "STOP_MARKET",
    quantity := filled_qty, stopPrice := slp,
    workingType := working_type, reduceOnly := true }

/-- Embedding of _place_exit_orders (lines 200-282): the exit side is
the opposite of the entry side; a truthy stored SL price yields one
reduce-only STOP_MARKET request with the realized quantity, then the
take-profit loop runs.  Also returns the submitted requests in order. -/
def place_exit_orders (place : ExitOrderParams → Option ℕ)
    (symbol side working_type : String) (sl_price : Option ℚ)
    (tp_specs : List TPSpec) (filled_qty : ℚ) :
    ExitsResult × List ExitOrderParams :=
  let exit_side := if side = "BUY" then "SELL" else "BUY"
  let slp := sl_price.getD 0
  let slPart : Option ℕ × Bool × List ExitOrderParams :=
    if slp ≠ 0 then
      match place (sl_exit_request symbol exit_side working_type filled_qty slp) with
      | some oid =>
          (some oid, false, [sl_exit_request symbol exit_side working_type filled_qty slp])
      | none =>
          (none, true, [sl_exit_request symbol exit_side working_type filled_qty slp])
    else (none, false, [])
  let tpPart := tp_exit_loop place symbol exit_side working_type tp_specs 0 filled_qty
  ({ sl_order_id := slPart.1, tp_order_ids := tpPart.1,
     sl_error := slPart.2.1, tp_error_indices := tpPart.2.1 },
   slPart.2.2 ++ tpPart.2.2)

/-- The fallback applied on the synchronous exit path (lines 548-552):
an absent, zero or negative reported executedQty falls back to the full
rounded requested quantity. -/
def sync_exit_filled_qty (executedQty : Option ℚ) (qty_rounded : ℚ) : ℚ :=
  let filled_qty := executedQty.getD qty_rounded
  if filled_qty ≤ 0 then qty_rounded else filled_qty

structure OrderFetch where
  status : Option String
  executedQty : Option ℚ
deriving DecidableEq, Repr

structure BracketJob where
  status : String
  symbol : String
  side : String
  entry_order_id : Option ℕ
  entry_status : Option String
  entry_filled : Bool
  filled_qty : ℚ
  sl_price : Option ℚ
  tp_specs : List TPSpec
  working_type : String
  sl_order_id : Option ℕ
  tp_order_ids : List ℕ
  exit_orders_placed : Bool
  cancelled : Bool
  triggered_exit : Option ℕ
  trigger_type : Option String
  cancelled_exits : List ℕ
  message : Option String
deriving DecidableEq, Repr

inductive Phase1Out : Type where
  | toPhase2 (job : BracketJob)
  | halted (job : BracketJob)
deriving DecidableEq, Repr

/-- Embedding of Phase 1 of _monitor_bracket (lines 89-134): poll the
entry order; a fill places the exits and proceeds to Phase 2; a
cancel/expire/reject marks entry_failed and stops; the cancelled flag
stops without changes; running out of fuel falls through to Phase 2
with the job unchanged, exactly as the timed while loop does. -/
def monitor_phase1 (fetchEntry : ℕ → Option OrderFetch)
    (cancelSignal : ℕ → Bool) (place : ExitOrderParams → Option ℕ)
    (job : BracketJob) : ℕ → Phase1Out
  | 0 => .toPhase2 job
  | fuel + 1 =>
      if cancelSignal (fuel + 1) then .halted job
      else
        match fetchEntry (fuel + 1) with
        | some od =>
            if od.status = some "FILLED"
                ∨ (od.status = some "PARTIALLY_FILLED"
                    ∧ 0 < od.executedQty.getD 0) then
              .toPhase2 { job with
                entry_filled := true,
                filled_qty := od.executedQty.getD 0,
                sl_order_id := (place_exit_orders place job.symbol job.side
                  job.working_type job.sl_price job.tp_specs
                  (od.executedQty.getD 0)).1.sl_order_id,
                tp_order_ids := (place_exit_orders place job.symbol job.side
                  job.working_type job.sl_price job.tp_specs
                  (od.executedQty.getD 0)).1.tp_order_ids,
                exit_orders_placed := true }
            else if od.status = some "CANCELED" ∨ od.status = some "CANCELLED"
                ∨ od.status = some "EXPIRED" ∨ od.status = some "REJECTED" then
              .halted { job with status := "entry_failed", entry_status := od.status }
            else monitor_phase1 fetchEntry cancelSignal place job fuel
        | none => monitor_phase1 fetchEntry cancelSignal place job fuel

/-- The first exit order observed FILLED at one tick, in list order. -/
def find_triggered (fetch : ℕ → Option OrderFetch) (ids : List ℕ) : Option ℕ :=
  ids.find? (fun oid =>
    match fetch oid with
    | some od => od.status == some "FILLED"
    | none => false)

/-- Embedding of the Phase 2 polling loop (lines 147-191): stop silently
on the cancelled flag; on the first FILLED exit silently cancel every
other exit id and complete, recording the triggered exit and whether it
was the SL; running out of fuel is the monitoring timeout. -/
def monitor_phase2_loop (fetchExit : ℕ → ℕ → Option OrderFetch)
    (cancelSignal : ℕ → Bool) (cancelOk : ℕ → Bool)
    (all_exit_ids : List ℕ) (slId : Option ℕ) (job : BracketJob) :
    ℕ → BracketJob
  | 0 => { job with
      status := "monitoring_timeout",
      message := some "Monitoring stopped after 1 hour, exit orders still active" }
  | fuel + 1 =>
      if cancelSignal (fuel + 1) then job
      else
        match find_triggered (fetchExit (fuel + 1)) all_exit_ids with
        | some triggered =>
            { job with
              status := "completed",
              triggered_exit := some triggered,
              cancelled_exits :=
                (all_exit_ids.filter (fun oid => oid != triggered)).filter
                  (fun oid => cancelOk oid),
              trigger_type :=
                some (if slId = some triggered then "sl" else "tp") }
        | none =>
            monitor_phase2_loop fetchExit cancelSignal cancelOk all_exit_ids
              slId job fuel

/-- The exit-order id set E of Phase 2 (line 137). -/
def exitIds (job : BracketJob) : List ℕ :=
  (match job.sl_order_id with
   | some i => [i]
   | none => []) ++ job.tp_order_ids

/-- Embedding of Phase 2 (lines 136-191): with no exit ids the job is
immediately completed, otherwise the polling loop runs. -/
def monitor_phase2 (fetchExit : ℕ → ℕ → Option OrderFetch)
    (cancelSignal : ℕ → Bool) (cancelOk : ℕ → Bool) (job : BracketJob)
    (fuel : ℕ) : BracketJob :=
  if exitIds job = [] then { job with status := "completed" }
  else monitor_phase2_loop fetchExit cancelSignal cancelOk (exitIds job)
    job.sl_order_id job fuel

/-- Embedding of _monitor_bracket: Phase 1 runs only when the exits are
not yet placed and an entry order id exists, then Phase 2 monitors
whatever exit ids the job holds. -/
def monitor_bracket (fetchEntry : ℕ → Option OrderFetch)
    (fetchExit : ℕ → ℕ → Option OrderFetch) (cancelSignal : ℕ → Bool)
    (cancelOk : ℕ → Bool) (place : ExitOrderParams → Option ℕ)
    (job : BracketJob) (fuel1 fuel2 : ℕ) : BracketJob :=
  if job.exit_orders_placed = false ∧ job.entry_order_id.isSome then
    match monitor_phase1 fetchEntry cancelSignal place job fuel1 with
    | .halted j => j
    | .toPhase2 j => monitor_phase2 fetchExit cancelSignal cancelOk j fuel2
  else monitor_phase2 fetchExit cancelSignal cancelOk job fuel2

/-! ### cancel_bracket_job

Source: src/binance_mcp_server/tools/futures/bracket_orders.py lines
640-701.  The targets of the best-effort cancels, in submission order.
-/

inductive CancelBracketResp : Type where
  | cannot_cancel (st : String)
  | ok (cancelled_orders failed_cancellations : List (String × ℕ))
deriving DecidableEq, Repr

/-- The cancel targets: the entry when present and not filled, then the
SL, then each TP, in order. -/
def cancelTargets (job : BracketJob) : List (String × ℕ) :=
  (match job.entry_order_id with
   | some eid => if job.entry_filled then [] else [("entry", eid)]
   | none => []) ++
  (match job.sl_order_id with
   | some sid => [("sl", sid)]
   | none => []) ++
  job.tp_order_ids.map (fun tid => ("tp", tid))

/-- Embedding of cancel_bracket_job on a registered job: statuses
completed, error and cancelled are rejected with cannot_cancel and no
exchange requests; any other status sets the cancelled flag, issues a
silent cancel for every target, partitions them into cancelled and
failed, and sets the terminal status cancelled.  The third component is
the list of order ids for which a cancel request was issued. -/
def cancel_bracket_job (cancelOk : ℕ → Bool) (job : BracketJob) :
    CancelBracketResp × BracketJob × List ℕ :=
  if job.status = "completed" ∨ job.status = "error" ∨ job.status = "cancelled" then
    (.cannot_cancel job.status, job, [])
  else
    let targets := cancelTargets job
    (.ok (targets.filter (fun t => cancelOk t.2))
         (targets.filter (fun t => !cancelOk t.2)),
     { job with cancelled := true, status := "cancelled" },
     targets.map Prod.snd)

/-- Concrete oracles for the bracket witnesses and counterexamples. -/
def alwaysFilledFetch : ℕ → Option OrderFetch :=
  fun _ => some ⟨some "FILLED", some 1⟩

def placeNone : ExitOrderParams → Option ℕ := fun _ => none

def noSignal : ℕ → Bool := fun _ => false

def cancelOkModel : ℕ → Bool := fun _ => true

def fetchExitNone : ℕ → ℕ → Option OrderFetch := fun _ _ => none

/-- Exit fetch oracle under which order 5 is FILLED and others NEW. -/
def fetchExitFive : ℕ → ℕ → Option OrderFetch :=
  fun _ oid => if oid = 5 then some ⟨some "FILLED", none⟩
    else some ⟨some "NEW", none⟩

/-- An active bracket job whose entry is order 1, with an SL price
stored and no TPs, exits not yet placed. -/
def jobActive : BracketJob :=
  { status := "active", symbol := "BTCUSDT", side := "BUY",
    entry_order_id := some 1, entry_status := some "NEW",
    entry_filled := false, filled_qty := 0, sl_price := some 49000,
    tp_specs := [], working_type := "CONTRACT_PRICE", sl_order_id := none,
    tp_order_ids := [], exit_orders_placed := false, cancelled := false,
    triggered_exit := none, trigger_type := none, cancelled_exits := [],
    message := none }

/-- An active bracket job with exits already placed: SL order 5 and one
TP order 6. -/
def jobWithExits : BracketJob :=
  { jobActive with
    entry_status := some "FILLED",
    entry_filled := true,
    filled_qty := 2/1000,
    sl_order_id := some 5,
    tp_order_ids := [6],
    exit_orders_placed := true }

/-- A bracket job whose monitor ended with entry_failed. -/
def jobEntryFailed : BracketJob :=
  { jobActive with status := "entry_failed", entry_status := some "REJECTED" }

/-! ## Theorems -/

theorem round_step_eq_round_tick (value : ℚ) (m e : ℕ) :
    round_to_step_size value m e = round_to_tick_size value m e := rfl

theorem ratTrunc_intCast (n : ℤ) : ratTrunc (n : ℚ) = n := by
  unfold ratTrunc
  split <;> simp

theorem ratTrunc_of_nonneg {q : ℚ} (h : 0 ≤ q) : ratTrunc q = ⌊q⌋ := by
  unfold ratTrunc
  simp [h]

theorem roundHalfEven_intCast (n : ℤ) : roundHalfEven (n : ℚ) = n := by
  unfold roundHalfEven
  norm_num

/-- Quantizing a rational that is already an integer multiple of 10^-prec
is the identity. -/
theorem quantizeDec_of_int_mul {x : ℚ} {prec : ℕ} (k : ℤ)
    (h : x * 10 ^ prec = (k : ℚ)) : quantizeDec x prec = x := by
  unfold quantizeDec
  rw [h, roundHalfEven_intCast, ← h]
  have hp : (10 : ℚ) ^ prec ≠ 0 := by positivity
  field_simp

theorem tickOf_pos {m e : ℕ} (hm : 0 < m) : 0 < tickOf m e := by
  unfold tickOf
  positivity

/-- Core computation lemma: for a positive tick the function returns
floor(value / tick) * tick exactly (the quantize step is the identity). -/
theorem round_to_tick_size_eq_floor (value : ℚ) (m e : ℕ) (hm : 0 < m)
    (hv : 0 ≤ value) :
    round_to_tick_size value m e = (⌊value / tickOf m e⌋ : ℚ) * tickOf m e := by
  have ht : 0 < tickOf m e := tickOf_pos hm
  have hq : 0 ≤ value / tickOf m e := div_nonneg hv ht.le
  show quantizeDec ((ratTrunc (value / tickOf m e) : ℚ) * tickOf m e) e = _
  rw [ratTrunc_of_nonneg hq]
  apply quantizeDec_of_int_mul (⌊value / tickOf m e⌋ * m)
  have hp : (10 : ℚ) ^ e ≠ 0 := by positivity
  push_cast
  unfold tickOf
  field_simp

theorem round_to_tick_size_le (x : ℚ) (m e : ℕ) (hm : 0 < m) (hx : 0 ≤ x) :
    round_to_tick_size x m e ≤ x := by
  have ht := tickOf_pos (e := e) hm
  rw [round_to_tick_size_eq_floor x m e hm hx]
  calc (⌊x / tickOf m e⌋ : ℚ) * tickOf m e
      ≤ (x / tickOf m e) * tickOf m e :=
        mul_le_mul_of_nonneg_right (Int.floor_le _) ht.le
    _ = x := div_mul_cancel₀ x ht.ne'

theorem round_to_tick_size_idem (x : ℚ) (m e : ℕ) (hm : 0 < m) (hx : 0 ≤ x) :
    round_to_tick_size (round_to_tick_size x m e) m e = round_to_tick_size x m e := by
  have ht := tickOf_pos (e := e) hm
  have h1 := round_to_tick_size_eq_floor x m e hm hx
  have hk : (0 : ℚ) ≤ (⌊x / tickOf m e⌋ : ℚ) := by
    exact_mod_cast Int.floor_nonneg.mpr (div_nonneg hx ht.le)
  have hr : 0 ≤ (⌊x / tickOf m e⌋ : ℚ) * tickOf m e := mul_nonneg hk ht.le
  rw [h1, round_to_tick_size_eq_floor _ m e hm hr]
  rw [mul_div_cancel_right₀ _ ht.ne', Int.floor_intCast]

/-- C4: for every positive value and positive tick/step size,
round_to_tick_size and round_to_step_size compute floor(x / t) * t in
exact decimal arithmetic: the result is at most x, is an integer
multiple of t, and the rounding is idempotent. -/
theorem rounding_floor_mult_idempotent (x : ℚ) (m e : ℕ)
    (hx : 0 < x) (hm : 0 < m) :
    round_to_tick_size x m e = (⌊x / tickOf m e⌋ : ℚ) * tickOf m e ∧
    round_to_tick_size x m e ≤ x ∧
    (∃ k : ℤ, round_to_tick_size x m e = (k : ℚ) * tickOf m e) ∧
    round_to_tick_size (round_to_tick_size x m e) m e
      = round_to_tick_size x m e ∧
    round_to_step_size x m e ≤ x ∧
    (∃ k : ℤ, round_to_step_size x m e = (k : ℚ) * tickOf m e) ∧
    round_to_step_size (round_to_step_size x m e) m e
      = round_to_step_size x m e := by
  refine ⟨round_to_tick_size_eq_floor x m e hm hx.le,
    round_to_tick_size_le x m e hm hx.le,
    ⟨⌊x / tickOf m e⌋, round_to_tick_size_eq_floor x m e hm hx.le⟩,
    round_to_tick_size_idem x m e hm hx.le, ?_, ?_, ?_⟩
  · rw [round_step_eq_round_tick]
    exact round_to_tick_size_le x m e hm hx.le
  · rw [round_step_eq_round_tick]
    exact ⟨⌊x / tickOf m e⌋, round_to_tick_size_eq_floor x m e hm hx.le⟩
  · rw [round_step_eq_round_tick, round_step_eq_round_tick]
    exact round_to_tick_size_idem x m e hm hx.le

/-- Witness for C4 at the spec scenario: tick "0.10" rounds 50000.15 down
to 50000.10, and step "0.001" rounds 0.12345 down to 0.123. -/
theorem rounding_floor_mult_idempotent_witness :
    (0 : ℚ) < 5000015/100 ∧ (0 : ℕ) < 10 ∧
    round_to_tick_size (5000015/100) 10 2 ≤ 5000015/100 ∧
    round_to_tick_size (5000015/100) 10 2 = 500001/10 ∧
    round_to_step_size (12345/100000) 1 3 = 123/1000 := by
  refine ⟨by norm_num, by norm_num,
    (rounding_floor_mult_idempotent (5000015/100) 10 2 (by norm_num)
      (by norm_num)).2.1, ?_, ?_⟩
  · rw [round_to_tick_size_eq_floor _ 10 2 (by norm_num) (by norm_num)]
    norm_num [tickOf]
  · rw [round_step_eq_round_tick,
      round_to_tick_size_eq_floor _ 1 3 (by norm_num) (by norm_num)]
    norm_num [tickOf]

/-- C10 counterexample: the claim states fillPercentage equals
executedQty / origQty * 100 (rounded) whenever origQty is not 0 and not
absent; but for a response with origQty -1 and executedQty 5 the code
reports 0 (the guard is orig_qty > 0), while the claim requires -500. -/
theorem fill_percentage_negative_cex :
    fillPercentage ⟨some (-1), some 5⟩ = 0 ∧
    quantizeDec ((5 : ℚ) / (-1) * 100) 2 ≠ 0 := by
  constructor
  · norm_num [fillPercentage]
  · rw [quantizeDec_of_int_mul (-50000) (by norm_num)]
    norm_num

/-- C10 amended: get_order_status_futures never divides by zero;
fillPercentage is 0 whenever origQty is absent or parses as a value at
most 0, and equals executedQty / origQty * 100 rounded to 2 decimal
places whenever origQty parses as a positive value. -/
theorem fill_percentage_spec (d : OrderQtyFields) :
    (d.origQty.getD 0 ≤ 0 → fillPercentage d = 0) ∧
    (0 < d.origQty.getD 0 →
      fillPercentage d
        = quantizeDec (d.executedQty.getD 0 / d.origQty.getD 0 * 100) 2) := by
  constructor
  · intro h
    simp [fillPercentage, not_lt.mpr h]
  · intro h
    simp [fillPercentage, h]

/-- Witness for C10 at origQty 0 (reports 0) and origQty 2 with
executedQty 1 (reports the rounded 50 percent). -/
theorem fill_percentage_spec_witness :
    ((OrderQtyFields.mk (some 0) (some 5)).origQty.getD 0 ≤ 0 ∧
      fillPercentage ⟨some 0, some 5⟩ = 0) ∧
    (0 < (OrderQtyFields.mk (some 2) (some 1)).origQty.getD 0 ∧
      fillPercentage ⟨some 2, some 1⟩
        = quantizeDec ((OrderQtyFields.mk (some 2) (some 1)).executedQty.getD 0
            / (OrderQtyFields.mk (some 2) (some 1)).origQty.getD 0 * 100) 2) :=
  ⟨⟨by norm_num, (fill_percentage_spec ⟨some 0, some 5⟩).1 (by norm_num)⟩,
   ⟨by norm_num, (fill_percentage_spec ⟨some 2, some 1⟩).2 (by norm_num)⟩⟩

/-- C7: calculate_fill_probability returns exactly 1 when the queue ahead
is nonpositive, exactly 0 when the consumption rate is nonpositive (with
a positive queue), and otherwise 1 - exp(-(rate/Q) * t) clamped to
[0, 1]; under the exponential-range facts the clamp is the identity and
the value lies in [0, 1].  The estimator evaluates the function at 30 s
and 60 s for every requested price level. -/
theorem fill_probability_spec (expQ : ℚ → ℚ) (Q Q0 rate rate0 t : ℚ)
    (hQ0 : Q0 ≤ 0) (hQ : 0 < Q) (hr0 : rate0 ≤ 0) (hr : 0 < rate)
    (h1 : 0 < expQ (-(rate / Q * t))) (h2 : expQ (-(rate / Q * t)) ≤ 1)
    (ob : OrderBookSnap) (side : String) (qty : ℚ) (levels : List ℚ) :
    calculate_fill_probability expQ Q0 rate t = 1 ∧
    calculate_fill_probability expQ Q rate0 t = 0 ∧
    calculate_fill_probability expQ Q rate t
      = min (max (1 - expQ (-(rate / Q * t))) 0) 1 ∧
    calculate_fill_probability expQ Q rate t = 1 - expQ (-(rate / Q * t)) ∧
    0 ≤ calculate_fill_probability expQ Q rate t ∧
    calculate_fill_probability expQ Q rate t ≤ 1 ∧
    (queue_fill_per_level expQ ob side qty rate levels).map
        (fun l => (l.fill_prob_30s, l.fill_prob_60s))
      = levels.map (fun p =>
          (quantizeDec (calculate_fill_probability expQ
              ((estimate_queue_position ob side p).1 + qty) rate 30) 3,
           quantizeDec (calculate_fill_probability expQ
              ((estimate_queue_position ob side p).1 + qty) rate 60) 3)) := by
  have hQn : ¬ Q ≤ 0 := not_le.mpr hQ
  have hrn : ¬ rate ≤ 0 := not_le.mpr hr
  have hclamp : calculate_fill_probability expQ Q rate t
      = min (max (1 - expQ (-(rate / Q * t))) 0) 1 := by
    simp [calculate_fill_probability, hQn, hrn]
  have hval : calculate_fill_probability expQ Q rate t
      = 1 - expQ (-(rate / Q * t)) := by
    rw [hclamp, max_eq_left (by linarith), min_eq_left (by linarith)]
  refine ⟨by simp [calculate_fill_probability, hQ0], ?_, hclamp, hval, ?_, ?_, ?_⟩
  · simp [calculate_fill_probability, hQn, hr0]
  · rw [hval]; linarith
  · rw [hval]; linarith
  · simp [queue_fill_per_level]

/-- Witness for C7 with the exponential stand-in at Q = 2, rate = 1,
t = 30 (so exp is evaluated at -15 giving 1/16). -/
theorem fill_probability_spec_witness :
    ((0 : ℚ) ≤ 0 ∧ (0 : ℚ) < 2 ∧ (0 : ℚ) < 1 ∧
      0 < expModel (-((1 : ℚ) / 2 * 30)) ∧ expModel (-((1 : ℚ) / 2 * 30)) ≤ 1) ∧
    calculate_fill_probability expModel 2 1 30
      = 1 - expModel (-((1 : ℚ) / 2 * 30)) :=
  ⟨⟨le_refl 0, by norm_num, by norm_num, by norm_num [expModel], by norm_num [expModel]⟩,
   (fill_probability_spec expModel 2 0 1 0 30 (le_refl 0) (by norm_num)
      (le_refl 0) (by norm_num) (by norm_num [expModel]) (by norm_num [expModel])
      ⟨[], []⟩ "BUY" 1 []).2.2.2.1⟩

theorem setKey_ne_nil {α : Type} (ps : List (String × α)) (k : String) (v : α) :
    setKey ps k v ≠ [] := by
  cases ps with
  | nil => simp [setKey]
  | cons hd tl =>
    obtain ⟨k₀, v₀⟩ := hd
    unfold setKey
    split <;> simp

theorem keys_cons {α : Type} (k₀ : String) (v₀ : α) (tl : List (String × α)) :
    keys ((k₀, v₀) :: tl) = k₀ :: keys tl := rfl

theorem setKey_of_not_mem {α : Type} (ps : List (String × α)) (k : String)
    (v : α) (h : k ∉ keys ps) : setKey ps k v = ps ++ [(k, v)] := by
  induction ps with
  | nil => rfl
  | cons hd tl ih =>
    obtain ⟨k₀, v₀⟩ := hd
    rw [keys_cons] at h
    have h₁ : k ≠ k₀ := fun hh => h (hh ▸ List.mem_cons_self _ _)
    have h₂ : k ∉ keys tl := fun hh => h (List.mem_cons_of_mem _ hh)
    unfold setKey
    rw [if_neg (fun hh => h₁ hh.symm), ih h₂]
    simp

theorem mem_keys_setKey {α : Type} {a : String} {ps : List (String × α)}
    {k : String} {v : α} (h : a ∈ keys (setKey ps k v)) : a = k ∨ a ∈ keys ps := by
  induction ps with
  | nil =>
    rw [show setKey [] k v = [(k, v)] from rfl, keys_cons] at h
    rcases List.mem_cons.mp h with h | h
    · exact Or.inl h
    · simp [keys] at h
  | cons hd tl ih =>
    obtain ⟨k₀, v₀⟩ := hd
    unfold setKey at h
    by_cases hk : k₀ = k
    · rw [if_pos hk, keys_cons] at h
      rcases List.mem_cons.mp h with h | h
      · exact Or.inl h
      · exact Or.inr (by rw [keys_cons]; exact List.mem_cons_of_mem _ h)
    · rw [if_neg hk, keys_cons] at h
      rcases List.mem_cons.mp h with h | h
      · exact Or.inr (by rw [keys_cons]; exact h ▸ List.mem_cons_self _ _)
      · rcases ih h with h₁ | h₁
        · exact Or.inl h₁
        · exact Or.inr (by rw [keys_cons]; exact List.mem_cons_of_mem _ h₁)

theorem lookup_setKey_self {α : Type} (ps : List (String × α)) (k : String)
    (v : α) : List.lookup k (setKey ps k v) = some v := by
  induction ps with
  | nil => simp [setKey, List.lookup]
  | cons hd tl ih =>
    obtain ⟨k₀, v₀⟩ := hd
    unfold setKey
    by_cases hk : k₀ = k
    · rw [if_pos hk]
      simp [List.lookup]
    · rw [if_neg hk]
      have hb : (k == k₀) = false := by
        simp
        exact fun hh => hk hh.symm
      simp [List.lookup, hb, ih]

theorem lookup_setKey_ne {α : Type} (ps : List (String × α)) {k₁ k : String}
    (v : α) (h : k₁ ≠ k) :
    List.lookup k₁ (setKey ps k v) = List.lookup k₁ ps := by
  induction ps with
  | nil =>
    have hb : (k₁ == k) = false := by simp [h]
    simp [setKey, List.lookup, hb]
  | cons hd tl ih =>
    obtain ⟨k₀, v₀⟩ := hd
    unfold setKey
    by_cases hk : k₀ = k
    · subst hk
      rw [if_pos rfl]
      have hb : (k₁ == k₀) = false := by simp [h]
      simp [List.lookup, hb]
    · rw [if_neg hk]
      by_cases hk₁ : k₁ = k₀
      · have hb : (k₁ == k₀) = true := by simp [hk₁]
        simp [List.lookup, hb]
      · have hb : (k₁ == k₀) = false := by simp [hk₁]
        simp [List.lookup, hb, ih]

theorem joinAmp_append_single (xs : List String) (y : String) (h : xs ≠ []) :
    joinAmp (xs ++ [y]) = joinAmp xs ++ "&" ++ y := by
  induction xs with
  | nil => exact absurd rfl h
  | cons x tl ih =>
    cases tl with
    | nil => rfl
    | cons x₂ tl₂ =>
      have hstep : joinAmp ((x :: x₂ :: tl₂) ++ [y])
          = x ++ "&" ++ joinAmp ((x₂ :: tl₂) ++ [y]) := by
        simp [joinAmp]
      rw [hstep, ih (by simp)]
      show _ = (x ++ "&" ++ joinAmp (x₂ :: tl₂)) ++ "&" ++ y
      simp [String.append_assoc]

theorem urlencode_append_single (ps : List (String × String)) (k v : String)
    (h : ps ≠ []) :
    urlencode (ps ++ [(k, v)]) = urlencode ps ++ "&" ++ urlencodePair (k, v) := by
  unfold urlencode
  rw [List.map_append]
  exact joinAmp_append_single _ _ (by simpa using h)

theorem flatten_map_singleton (l : List Char) :
    (l.map (fun c => [c])).flatten = l := by
  induction l with
  | nil => rfl
  | cons c tl ih => simp [ih]

theorem quotePlus_of_safe {s : String} (h : ∀ c ∈ s.data, safeChar c) :
    quotePlus s = s := by
  unfold quotePlus
  have hmap : s.data.map quoteChar = s.data.map (fun c => [c]) := by
    apply List.map_congr_left
    intro c hc
    unfold quoteChar
    rw [if_pos (h c hc)]
  rw [hmap, flatten_map_singleton]

theorem sign_request_unfolded (hmac : String → String → String)
    (secret : String) (localMs offset recvWindow : ℤ)
    (params : List (String × String)) :
    sign_request hmac secret localMs offset recvWindow params
      = setKey (signedBase localMs offset recvWindow params) "signature"
          (hmac secret (urlencode (signedBase localMs offset recvWindow params))) :=
  rfl

/-- C5: every signed request carries a timestamp parameter equal to
local time plus the clock offset and a recvWindow parameter, and its
signature parameter is the hex HMAC-SHA256 (keyed by the API secret) of
the url-encoded parameter string; serialized, the request is exactly
that signed string followed by the signature after the text
ampersand-signature-equals, the signature being over everything that
precedes it. -/
theorem signed_request_spec (hmac : String → String → String)
    (secret : String) (localMs offset recvWindow : ℤ)
    (params : List (String × String))
    (hsig : "signature" ∉ keys params)
    (hhex : ∀ c ∈ (hmac secret
        (urlencode (signedBase localMs offset recvWindow params))).data,
      safeChar c) :
    List.lookup "timestamp"
        (sign_request hmac secret localMs offset recvWindow params)
      = some (toString (localMs + offset)) ∧
    List.lookup "recvWindow"
        (sign_request hmac secret localMs offset recvWindow params)
      = some (toString recvWindow) ∧
    sign_request hmac secret localMs offset recvWindow params
      = signedBase localMs offset recvWindow params
          ++ [("signature",
               hmac secret (urlencode (signedBase localMs offset recvWindow params)))] ∧
    urlencode (sign_request hmac secret localMs offset recvWindow params)
      = urlencode (signedBase localMs offset recvWindow params)
          ++ "&signature="
          ++ hmac secret (urlencode (signedBase localMs offset recvWindow params)) := by
  set sig := hmac secret (urlencode (signedBase localMs offset recvWindow params))
    with hsigdef
  have hsig2 : "signature" ∉ keys (signedBase localMs offset recvWindow params) := by
    intro hmem
    rcases mem_keys_setKey hmem with h | h
    · exact absurd h (by decide)
    · rcases mem_keys_setKey h with h₁ | h₁
      · exact absurd h₁ (by decide)
      · exact hsig h₁
  have hexp : sign_request hmac secret localMs offset recvWindow params
      = signedBase localMs offset recvWindow params ++ [("signature", sig)] := by
    rw [sign_request_unfolded]
    exact setKey_of_not_mem _ _ _ hsig2
  refine ⟨?_, ?_, hexp, ?_⟩
  · rw [sign_request_unfolded, lookup_setKey_ne _ _ (by decide)]
    show List.lookup "timestamp"
        (setKey (setKey params "timestamp" (toString (localMs + offset)))
          "recvWindow" (toString recvWindow)) = _
    rw [lookup_setKey_ne _ _ (by decide), lookup_setKey_self]
  · rw [sign_request_unfolded, lookup_setKey_ne _ _ (by decide)]
    show List.lookup "recvWindow"
        (setKey (setKey params "timestamp" (toString (localMs + offset)))
          "recvWindow" (toString recvWindow)) = _
    rw [lookup_setKey_self]
  · have hne : signedBase localMs offset recvWindow params ≠ [] :=
      setKey_ne_nil _ _ _
    rw [hexp, urlencode_append_single _ _ _ hne]
    have hq : urlencodePair ("signature", sig) = "signature" ++ "=" ++ sig := by
      unfold urlencodePair
      rw [quotePlus_of_safe (s := "signature") (by decide),
        quotePlus_of_safe hhex]
    rw [hq]
    have hlit : ("&signature=" : String) = "&" ++ "signature" ++ "=" := by decide
    rw [hlit]
    simp only [String.append_assoc]

/-- Witness for C5 with one caller parameter and the hmac stand-in. -/
theorem signed_request_spec_witness :
    ("signature" ∉ keys [("symbol", "BTCUSDT")]) ∧
    List.lookup "timestamp"
        (sign_request hmacModel "sec" 100 5 5000 [("symbol", "BTCUSDT")])
      = some (toString ((100 : ℤ) + 5)) ∧
    urlencode (sign_request hmacModel "sec" 100 5 5000 [("symbol", "BTCUSDT")])
      = urlencode (signedBase 100 5 5000 [("symbol", "BTCUSDT")])
          ++ "&signature="
          ++ hmacModel "sec" (urlencode (signedBase 100 5 5000 [("symbol", "BTCUSDT")])) := by
  have h := signed_request_spec hmacModel "sec" 100 5 5000 [("symbol", "BTCUSDT")]
    (by decide) (by decide)
  exact ⟨by decide, h.1, h.2.2.2⟩

theorem runAttempts_first_success (func : ℕ → List (String × PyVal))
    (a n : ℕ) (h : getSuccess (func a) = true) : runAttempts func a n = func a := by
  cases n with
  | zero => rfl
  | succ n => simp [runAttempts, h]

/-- Reduction of the wrapper on a cache hit. -/
theorem wrapper_hit (func : ℕ → List (String × PyVal)) (maxRetries : ℕ)
    (cache : List (String × CacheEntry)) (now : ℚ) (key : String) (ttl : ℚ)
    (cached : List (String × PyVal)) (c₁ : List (String × CacheEntry))
    (h : cache_get cache now key = (some cached, c₁)) :
    with_retry_and_cache_call func maxRetries cache now key ttl
      = (setKey cached "_cache_hit" (PyVal.bool true), c₁) := by
  unfold with_retry_and_cache_call
  rw [h]

/-- Reduction of the wrapper on a cache miss with a successful run. -/
theorem wrapper_miss_success (func : ℕ → List (String × PyVal))
    (maxRetries : ℕ) (cache : List (String × CacheEntry)) (now : ℚ)
    (key : String) (ttl : ℚ) (c₁ : List (String × CacheEntry))
    (h : cache_get cache now key = (none, c₁))
    (hs : getSuccess (runAttempts func 0 maxRetries) = true) :
    with_retry_and_cache_call func maxRetries cache now key ttl
      = (setKey (runAttempts func 0 maxRetries) "_cache_hit" (PyVal.bool false),
         cache_set c₁ key
           (setKey (runAttempts func 0 maxRetries) "_cache_hit" (PyVal.bool false))
           now ttl) := by
  unfold with_retry_and_cache_call
  rw [h]
  simp [hs]

/-- C8 counterexample: after a first successful call, the second call
within the TTL returns a payload that differs from the first one (the
first carries _cache_hit false, the second _cache_hit true), so the two
calls do not return the same payload bytes. -/
theorem cache_same_bytes_cex :
    (with_retry_and_cache_call funcModel 3
        ((with_retry_and_cache_call funcModel 3 [] 0 "k" 30).2) 10 "k" 30).1
      ≠ (with_retry_and_cache_call funcModel 3 [] 0 "k" 30).1 ∧
    List.lookup "_cache_hit"
        (with_retry_and_cache_call funcModel 3
          ((with_retry_and_cache_call funcModel 3 [] 0 "k" 30).2) 10 "k" 30).1
      = some (PyVal.bool true) ∧
    List.lookup "_cache_hit"
        (with_retry_and_cache_call funcModel 3 [] 0 "k" 30).1
      = some (PyVal.bool false) := by
  have hrun : runAttempts funcModel 0 3 = funcModel 0 :=
    runAttempts_first_success funcModel 0 3 rfl
  have hcall₁ : with_retry_and_cache_call funcModel 3 [] 0 "k" 30
      = ([("success", PyVal.bool true), ("x", PyVal.num 1),
          ("_cache_hit", PyVal.bool false)],
         [("k", ⟨[("success", PyVal.bool true), ("x", PyVal.num 1),
                  ("_cache_hit", PyVal.bool false)], 0, 30⟩)]) := by
    rw [wrapper_miss_success funcModel 3 [] 0 "k" 30 [] rfl (by rw [hrun]; rfl),
      hrun]
    rfl
  have hget₂ : cache_get
      (with_retry_and_cache_call funcModel 3 [] 0 "k" 30).2 10 "k"
      = (some [("success", PyVal.bool true), ("x", PyVal.num 1),
               ("_cache_hit", PyVal.bool false)],
         (with_retry_and_cache_call funcModel 3 [] 0 "k" 30).2) := by
    rw [hcall₁]
    unfold cache_get
    norm_num [List.lookup]
  have hcall₂ : (with_retry_and_cache_call funcModel 3
      ((with_retry_and_cache_call funcModel 3 [] 0 "k" 30).2) 10 "k" 30).1
      = [("success", PyVal.bool true), ("x", PyVal.num 1),
         ("_cache_hit", PyVal.bool true)] := by
    rw [wrapper_hit funcModel 3 _ 10 "k" 30 _ _ hget₂]
    simp [setKey]
  have h₁ : List.lookup "_cache_hit"
      (with_retry_and_cache_call funcModel 3 [] 0 "k" 30).1
      = some (PyVal.bool false) := by
    rw [hcall₁]
    rfl
  have h₂ : List.lookup "_cache_hit"
      (with_retry_and_cache_call funcModel 3
        ((with_retry_and_cache_call funcModel 3 [] 0 "k" 30).2) 10 "k" 30).1
      = some (PyVal.bool true) := by
    rw [hcall₂]
    rfl
  refine ⟨?_, h₂, h₁⟩
  intro h
  have h₃ := congrArg (List.lookup "_cache_hit") h
  rw [h₁, h₂] at h₃
  have h₄ : PyVal.bool true = PyVal.bool false := Option.some.inj h₃
  have h₅ : true = false := by injection h₄
  exact Bool.noConfusion h₅

/-- C8 amended: two consecutive wrapper calls with the same normalized
argument key within the TTL, the first of which succeeds, return
payloads identical except for the _cache_hit field: the first is the
function result stamped _cache_hit false, the second is the same payload
re-stamped _cache_hit true, and every other key holds the same value in
both. -/
theorem cache_hit_spec (func : ℕ → List (String × PyVal)) (maxRetries : ℕ)
    (cache : List (String × CacheEntry)) (now₁ now₂ : ℚ) (key : String)
    (ttl : ℚ)
    (hfresh : List.lookup key cache = none)
    (hsucc : getSuccess (func 0) = true)
    (hwithin : now₂ - now₁ ≤ ttl) :
    (with_retry_and_cache_call func maxRetries cache now₁ key ttl).1
      = setKey (func 0) "_cache_hit" (PyVal.bool false) ∧
    (with_retry_and_cache_call func maxRetries
        (with_retry_and_cache_call func maxRetries cache now₁ key ttl).2
        now₂ key ttl).1
      = setKey (with_retry_and_cache_call func maxRetries cache now₁ key ttl).1
          "_cache_hit" (PyVal.bool true) ∧
    List.lookup "_cache_hit"
        (with_retry_and_cache_call func maxRetries cache now₁ key ttl).1
      = some (PyVal.bool false) ∧
    List.lookup "_cache_hit"
        (with_retry_and_cache_call func maxRetries
          (with_retry_and_cache_call func maxRetries cache now₁ key ttl).2
          now₂ key ttl).1
      = some (PyVal.bool true) ∧
    ∀ k, k ≠ "_cache_hit" →
      List.lookup k
          (with_retry_and_cache_call func maxRetries
            (with_retry_and_cache_call func maxRetries cache now₁ key ttl).2
            now₂ key ttl).1
        = List.lookup k
            (with_retry_and_cache_call func maxRetries cache now₁ key ttl).1 := by
  have hget₁ : cache_get cache now₁ key = (none, cache) := by
    unfold cache_get
    rw [hfresh]
  have hrun : runAttempts func 0 maxRetries = func 0 :=
    runAttempts_first_success func 0 maxRetries hsucc
  have hcall₁ := wrapper_miss_success func maxRetries cache now₁ key ttl cache
    hget₁ (by rw [hrun]; exact hsucc)
  rw [hrun] at hcall₁
  have hlook : List.lookup key
      (with_retry_and_cache_call func maxRetries cache now₁ key ttl).2
      = some ⟨setKey (func 0) "_cache_hit" (PyVal.bool false), now₁, ttl⟩ := by
    rw [hcall₁]
    exact lookup_setKey_self cache key _
  have hget₂ : cache_get
      (with_retry_and_cache_call func maxRetries cache now₁ key ttl).2 now₂ key
      = (some (setKey (func 0) "_cache_hit" (PyVal.bool false)),
         (with_retry_and_cache_call func maxRetries cache now₁ key ttl).2) := by
    unfold cache_get
    rw [hlook]
    simp [not_lt.mpr hwithin]
  have hcall₂ := wrapper_hit func maxRetries _ now₂ key ttl _ _ hget₂
  have hfst₁ : (with_retry_and_cache_call func maxRetries cache now₁ key ttl).1
      = setKey (func 0) "_cache_hit" (PyVal.bool false) := by rw [hcall₁]
  have hfst₂ : (with_retry_and_cache_call func maxRetries
      (with_retry_and_cache_call func maxRetries cache now₁ key ttl).2
      now₂ key ttl).1
      = setKey (setKey (func 0) "_cache_hit" (PyVal.bool false))
          "_cache_hit" (PyVal.bool true) := by rw [hcall₂]
  refine ⟨hfst₁, ?_, ?_, ?_, ?_⟩
  · rw [hfst₂, hfst₁]
  · rw [hfst₁]
    exact lookup_setKey_self _ _ _
  · rw [hfst₂]
    exact lookup_setKey_self _ _ _
  · intro k hk
    rw [hfst₂, hfst₁, lookup_setKey_ne _ _ hk]

/-- Witness for C8 instantiating the amended cache theorem at the
concrete payload. -/
theorem cache_hit_spec_witness :
    (List.lookup "k" ([] : List (String × CacheEntry)) = none ∧
      getSuccess (funcModel 0) = true ∧ (10 : ℚ) - 0 ≤ 30) ∧
    (with_retry_and_cache_call funcModel 3
        ((with_retry_and_cache_call funcModel 3 [] 0 "k" 30).2) 10 "k" 30).1
      = setKey (with_retry_and_cache_call funcModel 3 [] 0 "k" 30).1
          "_cache_hit" (PyVal.bool true) :=
  ⟨⟨rfl, rfl, by norm_num⟩,
   (cache_hit_spec funcModel 3 [] 0 10 "k" 30 rfl rfl (by norm_num)).2.1⟩

/-- C3 counterexample: with the current leverage already equal to the
requested 10, the call still submits the POST (second component true)
and the POST response is a plain success, not code -4046; there is no
idempotent short-circuit that skips the POST. -/
theorem set_leverage_posts_when_already_set_cex :
    set_leverage "BTCUSDT" 10 (some [⟨"BTCUSDT", 10⟩])
        (true, ⟨none, none, some "BTCUSDT", some 10, some "1000000"⟩)
      = (.ok true 10 (some 10), true) ∧
    (LeverageResp.mk none none (some "BTCUSDT") (some 10)
        (some "1000000")).code ≠ some (-4046) :=
  ⟨by decide, by decide⟩

/-- C3 amended: set_leverage always submits the POST to
/fapi/v1/leverage once validation passes; when the positionRisk read
shows the leverage already equal to n, the success response carries
already_set true with data.leverage taken from the POST response
(default n); exchange code -4046 is coerced to success with already_set
true and data.leverage n. -/
theorem set_leverage_already_set_spec (symbol : String) (n : ℤ)
    (checkResult : Option (List PositionRiskEntry)) (resp : LeverageResp)
    (h1 : 1 ≤ n) (h2 : n ≤ 125) :
    (∀ pr : Bool × LeverageResp,
      (set_leverage symbol n checkResult pr).2 = true) ∧
    ((set_leverage symbol n checkResult (true, resp)).1
      = .ok (currentLeverage symbol checkResult == some n) (resp.leverage.getD n)
          (currentLeverage symbol checkResult)) ∧
    (resp.code = some (-4046) →
      (set_leverage symbol n checkResult (false, resp)).1 = .ok true n none) := by
  have hv1 : ¬ n < 1 := not_lt.mpr h1
  have hv2 : ¬ (125 : ℤ) < n := not_lt.mpr h2
  refine ⟨?_, ?_, ?_⟩
  · intro pr
    obtain ⟨b, r⟩ := pr
    cases b
    · simp only [set_leverage, if_neg hv1, if_neg hv2]
      split <;> rfl
    · simp only [set_leverage, if_neg hv1, if_neg hv2]
  · simp only [set_leverage, if_neg hv1, if_neg hv2]
  · intro hc
    simp only [set_leverage, if_neg hv1, if_neg hv2]
    have hbeq : (resp.code == some (-4046)) = true := by
      rw [hc]; rfl
    simp [hbeq]

/-- Witness for C3 instantiating the amended theorem where the current
leverage already equals the requested value. -/
theorem set_leverage_already_set_spec_witness :
    ((1 : ℤ) ≤ 10 ∧ (10 : ℤ) ≤ 125) ∧
    (set_leverage "BTCUSDT" 10 (some [⟨"BTCUSDT", 10⟩])
        (true, ⟨none, none, some "BTCUSDT", some 10, some "1000000"⟩)).1
      = .ok (currentLeverage "BTCUSDT" (some [⟨"BTCUSDT", 10⟩]) == some 10)
          ((LeverageResp.mk none none (some "BTCUSDT") (some 10)
              (some "1000000")).leverage.getD 10)
          (currentLeverage "BTCUSDT" (some [⟨"BTCUSDT", 10⟩])) :=
  ⟨⟨by norm_num, by norm_num⟩,
   (set_leverage_already_set_spec "BTCUSDT" 10 (some [⟨"BTCUSDT", 10⟩])
      ⟨none, none, some "BTCUSDT", some 10, some "1000000"⟩
      (by norm_num) (by norm_num)).2.1⟩

/-- C6 counterexample: at execution time the order status was NEW, but
the cancel request failed; the job records an error with no action at
all, whereas the claim requires a recorded action cancelled whenever the
status was NEW or PARTIALLY_FILLED. -/
theorem ttl_cancel_failure_cex :
    (ttl_worker_execute 7 false
        (true, ⟨some "NEW", some "0.5", none, none⟩)
        (false, ⟨none, none, none, some "cancel rejected"⟩)).result = none ∧
    (ttl_worker_execute 7 false
        (true, ⟨some "NEW", some "0.5", none, none⟩)
        (false, ⟨none, none, none, some "cancel rejected"⟩)).status = "error" ∧
    isActiveStatus (some "NEW") :=
  ⟨by decide, by decide, Or.inl rfl⟩

/-- C6 amended: at TTL execution time (worker or blocking mode), an
action cancelled is recorded exactly when the fetched status was NEW or
PARTIALLY_FILLED AND the cancel request succeeded, carrying the cancel
response status and quantity; a non-live status records no_action with
the observed final status and executed quantity; a live status whose
cancel fails records an error with no action. -/
theorem ttl_action_spec (order_id : ℕ) (sd cd : OrderStatusData) :
    (isActiveStatus sd.status →
      ttl_worker_execute order_id false (true, sd) (true, cd)
        = ⟨"completed",
           some (.cancelled order_id cd.status cd.executedQty), none⟩) ∧
    (isActiveStatus sd.status →
      ttl_worker_execute order_id false (true, sd) (false, cd)
        = ⟨"error", none, cd.message⟩) ∧
    (¬ isActiveStatus sd.status →
      ∀ cres : Bool × OrderStatusData,
        ttl_worker_execute order_id false (true, sd) cres
          = ⟨"completed",
             some (.no_action order_id sd.status sd.executedQty), none⟩) ∧
    (∀ (cres : Bool × OrderStatusData) (fs eq' : Option String),
      (ttl_worker_execute order_id false (true, sd) cres).result
          = some (.cancelled order_id fs eq') →
        isActiveStatus sd.status ∧ cres.1 = true) ∧
    (isActiveStatus sd.status →
      cancel_on_ttl_blocking order_id (true, sd) (true, cd)
        = .cancelled_resp order_id cd.status cd.executedQty cd.avgPrice) ∧
    (isActiveStatus sd.status →
      cancel_on_ttl_blocking order_id (true, sd) (false, cd)
        = .cancel_failed cd.message) ∧
    (¬ isActiveStatus sd.status →
      ∀ cres : Bool × OrderStatusData,
        cancel_on_ttl_blocking order_id (true, sd) cres
          = .no_action_resp order_id sd.status sd.executedQty) := by
  refine ⟨?_, ?_, ?_, ?_, ?_, ?_, ?_⟩
  · intro ha
    simp [ttl_worker_execute, ha]
  · intro ha
    simp [ttl_worker_execute, ha]
  · intro ha cres
    simp [ttl_worker_execute, ha]
  · intro cres fs eq' h
    by_cases ha : isActiveStatus sd.status
    · obtain ⟨b, d⟩ := cres
      cases b
      · simp [ttl_worker_execute, ha] at h
      · exact ⟨ha, rfl⟩
    · simp [ttl_worker_execute, ha] at h
  · intro ha
    simp [cancel_on_ttl_blocking, ha]
  · intro ha
    simp [cancel_on_ttl_blocking, ha]
  · intro ha cres
    simp [cancel_on_ttl_blocking, ha]

/-- Witness for C6 at a NEW order whose cancel succeeds. -/
theorem ttl_action_spec_witness :
    isActiveStatus (some "NEW") ∧
    ttl_worker_execute 7 false
        (true, ⟨some "NEW", some "0", none, none⟩)
        (true, ⟨some "CANCELED", some "0", some "0", none⟩)
      = ⟨"completed",
         some (.cancelled 7 (some "CANCELED") (some "0")), none⟩ :=
  ⟨Or.inl rfl,
   (ttl_action_spec 7 ⟨some "NEW", some "0", none, none⟩
      ⟨some "CANCELED", some "0", some "0", none⟩).1 (Or.inl rfl)⟩

theorem find_triggered_some {fetch : ℕ → Option OrderFetch} {ids : List ℕ}
    {oid : ℕ} (h : find_triggered fetch ids = some oid) :
    oid ∈ ids ∧ ∃ od, fetch oid = some od ∧ od.status = some "FILLED" := by
  unfold find_triggered at h
  refine ⟨List.mem_of_find?_eq_some h, ?_⟩
  have hp := List.find?_some h
  cases hf : fetch oid with
  | none => rw [hf] at hp; exact absurd hp (by simp)
  | some od =>
      rw [hf] at hp
      exact ⟨od, rfl, by simpa using hp⟩

theorem monitor_phase2_loop_ids (fe : ℕ → ℕ → Option OrderFetch)
    (cs : ℕ → Bool) (ok : ℕ → Bool) (ids : List ℕ) (slId : Option ℕ)
    (job : BracketJob) (fuel : ℕ) :
    (monitor_phase2_loop fe cs ok ids slId job fuel).sl_order_id
        = job.sl_order_id ∧
    (monitor_phase2_loop fe cs ok ids slId job fuel).tp_order_ids
        = job.tp_order_ids := by
  induction fuel with
  | zero => exact ⟨rfl, rfl⟩
  | succ n ih =>
    unfold monitor_phase2_loop
    by_cases hc : cs (n + 1)
    · rw [if_pos hc]; exact ⟨rfl, rfl⟩
    · rw [if_neg hc]
      cases hf : find_triggered (fe (n + 1)) ids with
      | some t => simp [hf]
      | none => simp only [hf]; exact ih

theorem monitor_phase2_loop_completed (fe : ℕ → ℕ → Option OrderFetch)
    (cs : ℕ → Bool) (ok : ℕ → Bool) (ids : List ℕ) (slId : Option ℕ)
    (job : BracketJob) (fuel : ℕ)
    (h : (monitor_phase2_loop fe cs ok ids slId job fuel).status = "completed") :
    (monitor_phase2_loop fe cs ok ids slId job fuel = job
        ∧ job.status = "completed") ∨
    (∃ tick oid od, oid ∈ ids ∧ fe tick oid = some od
        ∧ od.status = some "FILLED"
        ∧ (monitor_phase2_loop fe cs ok ids slId job fuel).triggered_exit
            = some oid
        ∧ (monitor_phase2_loop fe cs ok ids slId job fuel).trigger_type
            = some (if slId = some oid then "sl" else "tp")) := by
  induction fuel with
  | zero =>
    exact absurd h (by simp [monitor_phase2_loop])
  | succ n ih =>
    unfold monitor_phase2_loop at h ⊢
    by_cases hc : cs (n + 1)
    · rw [if_pos hc] at h ⊢
      exact Or.inl ⟨rfl, h⟩
    · rw [if_neg hc] at h ⊢
      cases hf : find_triggered (fe (n + 1)) ids with
      | some t =>
          simp only [hf]
          obtain ⟨hmem, od, hfe, hst⟩ := find_triggered_some hf
          exact Or.inr ⟨n + 1, t, od, hmem, hfe, hst, rfl, rfl⟩
      | none =>
          simp only [hf] at h ⊢
          exact ih h

theorem monitor_phase1_cases (fetchEntry : ℕ → Option OrderFetch)
    (cs : ℕ → Bool) (place : ExitOrderParams → Option ℕ) (job : BracketJob) :
    ∀ fuel : ℕ,
    (∃ j, monitor_phase1 fetchEntry cs place job fuel = .halted j
        ∧ (j.status = job.status ∨ j.status = "entry_failed")
        ∧ j.triggered_exit = job.triggered_exit) ∨
    (∃ j, monitor_phase1 fetchEntry cs place job fuel = .toPhase2 j
        ∧ j.status = job.status ∧ j.triggered_exit = job.triggered_exit) := by
  intro fuel
  induction fuel with
  | zero => exact Or.inr ⟨job, rfl, rfl, rfl⟩
  | succ n ih =>
    unfold monitor_phase1
    by_cases hc : cs (n + 1)
    · rw [if_pos hc]
      exact Or.inl ⟨job, rfl, Or.inl rfl, rfl⟩
    · rw [if_neg hc]
      cases hf : fetchEntry (n + 1) with
      | none => simp only [hf]; exact ih
      | some od =>
          simp only [hf]
          by_cases h1 : od.status = some "FILLED"
              ∨ (od.status = some "PARTIALLY_FILLED" ∧ 0 < od.executedQty.getD 0)
          · rw [if_pos h1]
            exact Or.inr ⟨_, rfl, rfl, rfl⟩
          · rw [if_neg h1]
            by_cases h2 : od.status = some "CANCELED" ∨ od.status = some "CANCELLED"
                ∨ od.status = some "EXPIRED" ∨ od.status = some "REJECTED"
            · rw [if_pos h2]
              exact Or.inl ⟨_, rfl, Or.inr rfl, rfl⟩
            · rw [if_neg h2]
              exact ih

theorem exitIds_update_status (job : BracketJob) (st : String) :
    exitIds { job with status := st } = exitIds job := rfl

theorem exitIds_eq_of_fields {a b : BracketJob}
    (h1 : a.sl_order_id = b.sl_order_id) (h2 : a.tp_order_ids = b.tp_order_ids) :
    exitIds a = exitIds b := by
  unfold exitIds
  rw [h1, h2]

theorem monitor_phase2_completed (fe : ℕ → ℕ → Option OrderFetch)
    (cs : ℕ → Bool) (ok : ℕ → Bool) (j : BracketJob) (fuel : ℕ)
    (hstart : j.status = "active") (htrig : j.triggered_exit = none)
    (h : (monitor_phase2 fe cs ok j fuel).status = "completed") :
    (exitIds (monitor_phase2 fe cs ok j fuel) = []
        ∧ (monitor_phase2 fe cs ok j fuel).triggered_exit = none) ∨
    (∃ tick oid od, oid ∈ exitIds (monitor_phase2 fe cs ok j fuel)
        ∧ fe tick oid = some od ∧ od.status = some "FILLED"
        ∧ (monitor_phase2 fe cs ok j fuel).triggered_exit = some oid
        ∧ (monitor_phase2 fe cs ok j fuel).trigger_type
            = some (if (monitor_phase2 fe cs ok j fuel).sl_order_id = some oid
                then "sl" else "tp")) := by
  unfold monitor_phase2 at h ⊢
  by_cases he : exitIds j = []
  · rw [if_pos he]
    exact Or.inl ⟨he, htrig⟩
  · rw [if_neg he] at h ⊢
    rcases monitor_phase2_loop_completed fe cs ok (exitIds j) j.sl_order_id j
        fuel h with ⟨heq, hjs⟩ | ⟨tick, oid, od, hmem, hfe, hst, htr, hty⟩
    · rw [hstart] at hjs
      exact absurd hjs (by decide)
    · right
      have hids := monitor_phase2_loop_ids fe cs ok (exitIds j) j.sl_order_id j fuel
      have hexit : exitIds (monitor_phase2_loop fe cs ok (exitIds j)
          j.sl_order_id j fuel) = exitIds j :=
        exitIds_eq_of_fields hids.1 hids.2
      refine ⟨tick, oid, od, ?_, hfe, hst, htr, ?_⟩
      · rw [hexit]; exact hmem
      · rw [hids.1]; exact hty

/-- C1 counterexample: a bracket whose entry fills but whose single exit
placement fails ends with status completed while no exit order was ever
observed FILLED and no triggered_exit is recorded; completed is reached
through the empty exit set, not through a Phase 2 triggered-exit
observation. -/
theorem monitor_completed_without_trigger_cex :
    (monitor_bracket alwaysFilledFetch fetchExitNone noSignal cancelOkModel
        placeNone jobActive 5 5).status = "completed" ∧
    (monitor_bracket alwaysFilledFetch fetchExitNone noSignal cancelOkModel
        placeNone jobActive 5 5).triggered_exit = none ∧
    exitIds (monitor_bracket alwaysFilledFetch fetchExitNone noSignal
        cancelOkModel placeNone jobActive 5 5) = [] := by
  refine ⟨?_, ?_, ?_⟩ <;> rfl

/-- C1 amended: a bracket job monitor ends with status completed only in
two ways: either the exit-order id set is empty at the start of Phase 2
(no triggered_exit is recorded), or some placed exit order was observed
FILLED at a poll tick and is recorded as triggered_exit with
trigger_type sl exactly when it is the placed SL id, tp otherwise. -/
theorem bracket_completed_trigger_or_no_exits
    (fetchEntry : ℕ → Option OrderFetch)
    (fetchExit : ℕ → ℕ → Option OrderFetch) (cancelSignal : ℕ → Bool)
    (cancelOk : ℕ → Bool) (place : ExitOrderParams → Option ℕ)
    (job : BracketJob) (fuel1 fuel2 : ℕ)
    (hstart : job.status = "active") (htrig : job.triggered_exit = none)
    (hres : (monitor_bracket fetchEntry fetchExit cancelSignal cancelOk place
        job fuel1 fuel2).status = "completed") :
    (exitIds (monitor_bracket fetchEntry fetchExit cancelSignal cancelOk place
          job fuel1 fuel2) = []
        ∧ (monitor_bracket fetchEntry fetchExit cancelSignal cancelOk place
            job fuel1 fuel2).triggered_exit = none) ∨
    (∃ tick oid od,
        oid ∈ exitIds (monitor_bracket fetchEntry fetchExit cancelSignal
          cancelOk place job fuel1 fuel2)
        ∧ fetchExit tick oid = some od ∧ od.status = some "FILLED"
        ∧ (monitor_bracket fetchEntry fetchExit cancelSignal cancelOk place
            job fuel1 fuel2).triggered_exit = some oid
        ∧ (monitor_bracket fetchEntry fetchExit cancelSignal cancelOk place
            job fuel1 fuel2).trigger_type
            = some (if (monitor_bracket fetchEntry fetchExit cancelSignal
                cancelOk place job fuel1 fuel2).sl_order_id = some oid
              then "sl" else "tp")) := by
  unfold monitor_bracket at hres ⊢
  by_cases hcond : job.exit_orders_placed = false ∧ job.entry_order_id.isSome
  · rw [if_pos hcond] at hres ⊢
    rcases monitor_phase1_cases fetchEntry cancelSignal place job fuel1 with
        ⟨j, hj, hjs, hjt⟩ | ⟨j, hj, hjs, hjt⟩
    · rw [hj] at hres ⊢
      simp only at hres
      rcases hjs with hjs | hjs <;> rw [hjs] at hres
      · rw [hstart] at hres
        exact absurd hres (by decide)
      · exact absurd hres (by decide)
    · rw [hj] at hres ⊢
      simp only at hres ⊢
      exact monitor_phase2_completed fetchExit cancelSignal cancelOk j fuel2
        (hjs.trans hstart) (hjt.trans htrig) hres
  · rw [if_neg hcond] at hres ⊢
    exact monitor_phase2_completed fetchExit cancelSignal cancelOk job fuel2
      hstart htrig hres

/-- Witness for C1: with exits SL 5 and TP 6 already placed and order 5
observed FILLED, the monitor completes through the triggered-exit path. -/
theorem bracket_completed_trigger_or_no_exits_witness :
    (jobWithExits.status = "active" ∧ jobWithExits.triggered_exit = none ∧
      (monitor_bracket alwaysFilledFetch fetchExitFive noSignal cancelOkModel
        placeNone jobWithExits 5 5).status = "completed") ∧
    ((exitIds (monitor_bracket alwaysFilledFetch fetchExitFive noSignal
          cancelOkModel placeNone jobWithExits 5 5) = []
        ∧ (monitor_bracket alwaysFilledFetch fetchExitFive noSignal
            cancelOkModel placeNone jobWithExits 5 5).triggered_exit = none) ∨
      (∃ tick oid od,
        oid ∈ exitIds (monitor_bracket alwaysFilledFetch fetchExitFive
          noSignal cancelOkModel placeNone jobWithExits 5 5)
        ∧ fetchExitFive tick oid = some od ∧ od.status = some "FILLED"
        ∧ (monitor_bracket alwaysFilledFetch fetchExitFive noSignal
            cancelOkModel placeNone jobWithExits 5 5).triggered_exit = some oid
        ∧ (monitor_bracket alwaysFilledFetch fetchExitFive noSignal
            cancelOkModel placeNone jobWithExits 5 5).trigger_type
            = some (if (monitor_bracket alwaysFilledFetch fetchExitFive
                noSignal cancelOkModel placeNone jobWithExits 5 5).sl_order_id
                  = some oid
              then "sl" else "tp"))) :=
  ⟨⟨rfl, rfl, rfl⟩,
   bracket_completed_trigger_or_no_exits alwaysFilledFetch fetchExitFive
     noSignal cancelOkModel placeNone jobWithExits 5 5 rfl rfl rfl⟩

/-- C2 counterexample: on a job in the terminal status entry_failed,
cancel_bracket_job does not return cannot_cancel: it proceeds, issues a
cancel request for the entry order, and moves the job to cancelled. -/
theorem cancel_entry_failed_job_cex :
    (cancel_bracket_job cancelOkModel jobEntryFailed).1
      = .ok [("entry", 1)] [] ∧
    (cancel_bracket_job cancelOkModel jobEntryFailed).2.2 = [1] ∧
    (cancel_bracket_job cancelOkModel jobEntryFailed).2.1.status = "cancelled" := by
  refine ⟨?_, ?_, ?_⟩ <;> rfl

/-- C2 amended: cancel_bracket_job returns cannot_cancel and issues no
exchange requests exactly for the statuses completed, error and
cancelled; on any other status (including the terminal entry_failed and
monitoring_timeout) it issues best-effort cancels for the entry (when
not filled), the SL and every TP, and sets the status to cancelled. -/
theorem cancel_bracket_job_terminal_spec (cancelOk : ℕ → Bool)
    (job : BracketJob) :
    (job.status = "completed" ∨ job.status = "error"
        ∨ job.status = "cancelled" →
      cancel_bracket_job cancelOk job = (.cannot_cancel job.status, job, [])) ∧
    (¬ (job.status = "completed" ∨ job.status = "error"
        ∨ job.status = "cancelled") →
      cancel_bracket_job cancelOk job
        = (.ok ((cancelTargets job).filter (fun t => cancelOk t.2))
               ((cancelTargets job).filter (fun t => !cancelOk t.2)),
           { job with cancelled := true, status := "cancelled" },
           (cancelTargets job).map Prod.snd)) := by
  constructor
  · intro h
    simp [cancel_bracket_job, h]
  · intro h
    simp [cancel_bracket_job, h]

/-- Witness for C2 on a completed job. -/
theorem cancel_bracket_job_terminal_spec_witness :
    (({ jobActive with status := "completed" } : BracketJob).status
        = "completed" ∨
      ({ jobActive with status := "completed" } : BracketJob).status = "error" ∨
      ({ jobActive with status := "completed" } : BracketJob).status
        = "cancelled") ∧
    cancel_bracket_job cancelOkModel { jobActive with status := "completed" }
      = (.cannot_cancel ({ jobActive with status := "completed" }
            : BracketJob).status,
         { jobActive with status := "completed" }, []) :=
  ⟨Or.inl rfl,
   (cancel_bracket_job_terminal_spec cancelOkModel
      { jobActive with status := "completed" }).1 (Or.inl rfl)⟩

/-- C9: on the synchronous exit path (entry already FILLED or
wait_for_entry false), an absent, zero or negative reported executedQty
makes the exits be placed immediately from the full rounded requested
quantity: the fallback quantity equals qty_rounded, the placement is
exactly the placement at qty_rounded, and a stored nonzero SL price
yields a first request that is a reduce-only STOP_MARKET for the full
qty_rounded. -/
theorem sync_exit_full_qty_spec (entry_status : String)
    (wait_for_entry : Bool) (executedQty : Option ℚ) (qty_rounded : ℚ)
    (place : ExitOrderParams → Option ℕ) (symbol side working_type : String)
    (sl_price : Option ℚ) (tp_specs : List TPSpec)
    (hsync : entry_status = "FILLED" ∨ wait_for_entry = false)
    (hmiss : executedQty.getD 0 ≤ 0) :
    sync_exit_filled_qty executedQty qty_rounded = qty_rounded ∧
    place_exit_orders place symbol side working_type sl_price tp_specs
        (sync_exit_filled_qty executedQty qty_rounded)
      = place_exit_orders place symbol side working_type sl_price tp_specs
          qty_rounded ∧
    (∀ sl_val : ℚ, sl_price = some sl_val → sl_val ≠ 0 →
      ∃ rest,
        (place_exit_orders place symbol side working_type sl_price tp_specs
            (sync_exit_filled_qty executedQty qty_rounded)).2
          = sl_exit_request symbol (if side = "BUY" then "SELL" else "BUY")
              working_type qty_rounded sl_val :: rest) := by
  have h1 : sync_exit_filled_qty executedQty qty_rounded = qty_rounded := by
    cases executedQty with
    | none => simp [sync_exit_filled_qty]
    | some v =>
        simp only [Option.getD_some] at hmiss
        simp [sync_exit_filled_qty, hmiss]
  refine ⟨h1, by rw [h1], ?_⟩
  intro sl_val hsl hne
  rw [h1, hsl]
  refine ⟨(tp_exit_loop place symbol (if side = "BUY" then "SELL" else "BUY")
      working_type tp_specs 0 qty_rounded).2.2, ?_⟩
  unfold place_exit_orders
  simp only [Option.getD_some]
  rw [if_pos hne]
  cases hp : place (sl_exit_request symbol
      (if side = "BUY" then "SELL" else "BUY") working_type qty_rounded
      sl_val) <;> simp [hp]

/-- Witness for C9 at a missing executedQty with requested quantity
0.002 and SL 49000. -/
theorem sync_exit_full_qty_spec_witness :
    (((some "FILLED" : Option String) = some "FILLED" ∨ True)
        ∧ (none : Option ℚ).getD 0 ≤ 0) ∧
    sync_exit_filled_qty none (2/1000) = 2/1000 :=
  ⟨⟨Or.inl rfl, le_refl 0⟩,
   (sync_exit_full_qty_spec "FILLED" true none (2/1000) placeNone "BTCUSDT"
      "BUY" "CONTRACT_PRICE" (some 49000) [] (Or.inl rfl) (le_refl 0)).1⟩

end BinanceMCP
